import Mathlib

/-!
Verification of the Healthmate-CoachAI agent (`healthmate_coach_ai/agent.py` and
`agent/healthmate_coach_ai/agent.py`) against its specification.

The Python source is shallowly embedded: strings handled character-by-character are
modelled as `List Char`, Python `dict`s coming from JSON as association lists or
structures of `Option` fields (a `none` field models an absent key), exceptions as
`Except`/`Option`, and the async producer/consumer queue of the streaming entrypoint
as an explicit schedule of enqueue batches interleaved with consumer poll steps.
-/

set_option autoImplicit false

namespace HealthCoach

/-- Python truthiness of an optional string (`if not x:` is false exactly when the
value is present and non-empty). -/
def strTruthy : Option String → Bool
  | none => false
  | some s => !(s == "")

/-! ### Streaming event queue items

Items placed on the `asyncio.Queue` by `send_event` (a `subAgentProgress` progress
dict) and by `_extract_health_coach_events` (either a freshly built
`contentBlockDelta` wrapper around a plain-string chunk, or the original structured
event passed through unchanged). -/

/-- Model of the `"contentBlockStart"` value of a structured stream event:
`block.get("start", {})` may contain a `"toolUse"` dict whose `"name"` is optional.
The outer `Option` is the presence of `"toolUse"` in the start data; the inner
`Option String` is the optional `"name"` field. -/
structure CBStart where
  toolUse : Option (Option String)
deriving DecidableEq

/-- Model of the `"contentBlockDelta"` value of a structured stream event:
`block.get("delta", {})` may contain a `"text"` field. -/
structure CBDelta where
  text : Option String
deriving DecidableEq

/-- Raw events produced by `agent.stream_async` as consumed by
`_extract_health_coach_events`: plain strings, dicts with an `"event"` key holding
optional `contentBlockStart` / `contentBlockDelta` sub-dicts, or anything else. -/
inductive RawEvent
  | rstr (s : String)
  | revt (cbStart : Option CBStart) (cbDelta : Option CBDelta)
  | rother
deriving DecidableEq

/-- Items that travel on the shared FIFO queue between `invoke_health_coach`
(producer) and the entrypoint `invoke` (consumer). -/
inductive QItem
  | deltaWrap (text : String)
  | passthrough (cbStart : Option CBStart) (cbDelta : Option CBDelta)
  | progress (message : String) (stage : String) (toolName : Option String)
deriving DecidableEq

/-! ### `send_event` and `_extract_health_coach_events`
(`src/agent/healthmate_coach_ai/agent.py`, lines 463-498) -/

/-- Queue item built by `send_event(queue, message, stage, tool_name)`: a
`subAgentProgress` dict with the optional `tool_name` included only when given. -/
def sendEventItem (message stage : String) (toolName : Option String) : QItem :=
  QItem.progress message stage toolName

/-- One step of `_extract_health_coach_events(queue, event, state)` with a live
queue: given the current accumulated `state["text"]`, returns the new accumulated
text and the list of items the call puts on the queue, in order.  A plain string
chunk is appended to the text and wrapped as a `contentBlockDelta`; a structured
event first emits a tool-use progress notice when `"toolUse"` is present in its
`contentBlockStart`, then, when its `contentBlockDelta` carries a `"text"` field,
appends that text and re-enqueues the original event. -/
def extractStep (ev : RawEvent) (text : String) : String × List QItem :=
  match ev with
  | RawEvent.rstr s => (text ++ s, [QItem.deltaWrap s])
  | RawEvent.revt cbStart cbDelta =>
    let startItems : List QItem :=
      match cbStart with
      | some b =>
        match b.toolUse with
        | some name? =>
          [sendEventItem ("健康データを" ++ name?.getD "unknown" ++ "で処理中")
            "tool_use" (some (name?.getD "unknown"))]
        | none => []
      | none => []
    match cbDelta with
    | some d =>
      match d.text with
      | some t => (text ++ t, startItems ++ [QItem.passthrough cbStart cbDelta])
      | none => (text, startItems)
    | none => (text, startItems)
  | RawEvent.rother => (text, [])

/-- Text contributed to the accumulated buffer by a single raw event: the whole
chunk for a plain string, the `"text"` field of a `contentBlockDelta` when present,
and nothing for every other shape. -/
def textOf : RawEvent → String
  | RawEvent.rstr s => s
  | RawEvent.revt _ (some d) => d.text.getD ""
  | RawEvent.revt _ none => ""
  | RawEvent.rother => ""

/-- Concatenation, in processing order, of the text contributions of a raw event
stream. -/
def concatTexts : List RawEvent → String
  | [] => ""
  | ev :: evs => textOf ev ++ concatTexts evs

/-- Accumulated `state["text"]` after `invoke_health_coach` (success path,
`src/agent/healthmate_coach_ai/agent.py` lines 501-519) has fed every event of the
producer stream through `_extract_health_coach_events`; this is the string the
function returns. -/
def invokeHealthCoachText (events : List RawEvent) : String :=
  events.foldl (fun t ev => (extractStep ev t).1) ""

/-! ### The streaming multiplexer poll loop
(`src/agent/healthmate_coach_ai/agent.py`, lines 594-615)

```
while True:
    try:
        event = await asyncio.wait_for(queue.get(), timeout=0.1)
        yield event
    except asyncio.TimeoutError:
        if response_task.done():
            while not queue.empty():
                yield queue.get_nowait()
            break
        continue
```

The producer (`invoke_health_coach` writing through `send_event` /
`_extract_health_coach_events`) and this consumer loop are two coroutines on one
event loop.  An execution is modelled by a schedule: `sched[i]` is the batch of
items the producer appends to the FIFO queue during the i-th consumer wait, and the
producer task completes (`response_task.done()`) once all batches are delivered.
Each consumer iteration either dequeues the head item and yields it (the
`wait_for` success path, taken whenever the queue is or becomes non-empty during
the 100 ms wait) or times out on an empty queue and continues.  Once the schedule
is exhausted the producer is done: the loop forwards the remaining queued items one
by one and/or flushes them with the non-blocking `get_nowait` drain, which in
either case emits exactly the queue contents in FIFO order, then breaks. -/

/-- Events yielded to the caller by the poll loop, given the schedule of producer
enqueue batches and the current queue contents. -/
def pollLoop : List (List QItem) → List QItem → List QItem
  | batch :: rest, q =>
    match q ++ batch with
    | [] => pollLoop rest []
    | e :: q' => e :: pollLoop rest q'
  | [], q => q

/-! ### JWT payload decoding
(`src/healthmate_coach_ai/agent.py` lines 39-63; the variant in
`src/agent/healthmate_coach_ai/agent.py` lines 124-139 is identical up to the
explicit `ValueError` that the shared `except` clause turns into the same empty
result).  Strings processed character by character are modelled as `List Char`;
bytes as `Nat` values below 256. -/

/-- Decoded claims of a bearer token: a JSON object of string-valued claims,
modelled as an association list (a Python `dict`, first binding wins). -/
abbrev Claims := List (String × String)

/-- Character of the base64url alphabet at index `i` (`A-Z`, `a-z`, `0-9`, `-`,
`_`). -/
def b64Char (i : Nat) : Char :=
  if i < 26 then Char.ofNat (65 + i)
  else if i < 52 then Char.ofNat (97 + (i - 26))
  else if i < 62 then Char.ofNat (48 + (i - 52))
  else if i = 62 then '-'
  else '_'

/-- Index of a character in the base64url alphabet, `none` for every character
outside it. -/
def b64Index (c : Char) : Option Nat :=
  if 65 ≤ c.toNat && c.toNat ≤ 90 then some (c.toNat - 65)
  else if 97 ≤ c.toNat && c.toNat ≤ 122 then some (26 + (c.toNat - 97))
  else if 48 ≤ c.toNat && c.toNat ≤ 57 then some (52 + (c.toNat - 48))
  else if c = '-' then some 62
  else if c = '_' then some 63
  else none

/-- First byte of a decoded base64 group, from the first two sextets. -/
def decByte1 (i1 i2 : Nat) : Nat := i1 * 4 + i2 / 16

/-- Second byte of a decoded base64 group, from the second and third sextets. -/
def decByte2 (i2 i3 : Nat) : Nat := i2 % 16 * 16 + i3 / 4

/-- Third byte of a decoded base64 group, from the third and fourth sextets. -/
def decByte3 (i3 i4 : Nat) : Nat := i3 % 4 * 64 + i4

/-- Model of `base64.urlsafe_b64decode` on its strict domain: the input must be a
sequence of 4-character groups, `=` padding may appear only at the end (one or two
characters), and every other character must belong to the base64url alphabet;
everything else fails with `none` (in the source any such failure is an exception
swallowed by the enclosing `except`).  On inputs that CPython's lenient decoder
would repair by discarding stray characters this model is stricter; the tokens the
agent handles (dot-separated base64url segments) never contain such characters. -/
def b64urlDecode : List Char → Option (List Nat)
  | [] => some []
  | c1 :: c2 :: c3 :: c4 :: rest =>
    match b64Index c1, b64Index c2 with
    | some i1, some i2 =>
      if c3 = '=' then
        if c4 = '=' then
          if rest = [] then some [decByte1 i1 i2] else none
        else none
      else
        match b64Index c3 with
        | some i3 =>
          if c4 = '=' then
            if rest = [] then some [decByte1 i1 i2, decByte2 i2 i3] else none
          else
            match b64Index c4 with
            | some i4 =>
              (b64urlDecode rest).map
                (fun bs => decByte1 i1 i2 :: decByte2 i2 i3 :: decByte3 i3 i4 :: bs)
            | none => none
        | none => none
    | _, _ => none
  | _ => none

/-- base64url encoding with `=` padding (the form `urlsafe_b64decode` accepts). -/
def b64urlEncodePad : List Nat → List Char
  | [] => []
  | [a] => [b64Char (a / 4), b64Char (a % 4 * 16), '=', '=']
  | [a, b] => [b64Char (a / 4), b64Char (a % 4 * 16 + b / 16), b64Char (b % 16 * 4), '=']
  | a :: b :: c :: rest =>
    b64Char (a / 4) :: b64Char (a % 4 * 16 + b / 16) :: b64Char (b % 16 * 4 + c / 64) ::
      b64Char (c % 64) :: b64urlEncodePad rest

/-- base64url encoding with the `=` padding stripped — the form JWT segments use
and the claim's construction produces. -/
def b64urlEncodeNoPad : List Nat → List Char
  | [] => []
  | [a] => [b64Char (a / 4), b64Char (a % 4 * 16)]
  | [a, b] => [b64Char (a / 4), b64Char (a % 4 * 16 + b / 16), b64Char (b % 16 * 4)]
  | a :: b :: c :: rest =>
    b64Char (a / 4) :: b64Char (a % 4 * 16 + b / 16) :: b64Char (b % 16 * 4 + c / 64) ::
      b64Char (c % 64) :: b64urlEncodeNoPad rest

/-- The padding-restoration step of `_decode_jwt_payload`:
`padding = 4 - (len(payload) % 4)` followed by `if padding != 4: payload += "=" * padding`. -/
def padRestore (payload : List Char) : List Char :=
  if 4 - payload.length % 4 ≠ 4 then
    payload ++ List.replicate (4 - payload.length % 4) '='
  else payload

/-- Model of `bytes.decode("utf-8")` on the ASCII fragment: every byte below 128
maps to the corresponding character, any byte 128 or above fails with `none`.
The JSON texts of this development are pure ASCII (as is the output of
`json.dumps` with its default `ensure_ascii`), so multi-byte UTF-8 sequences are
never produced on the success path. -/
def asciiDecode : List Nat → Option (List Char)
  | [] => some []
  | b :: bs =>
    if b < 128 then (asciiDecode bs).map (fun cs => Char.ofNat b :: cs)
    else none

/-- Characters that JSON may carry inside a quoted string with no escaping:
printable ASCII other than the quote and the backslash. -/
def safeChar (c : Char) : Bool :=
  decide (32 ≤ c.toNat) && decide (c.toNat < 128) && !(c == '\"') && !(c == '\\')

/-- A string all of whose characters are JSON-safe (see `safeChar`). -/
def safeStr (s : String) : Bool := s.toList.all safeChar

/-- A claims mapping whose keys and values are all JSON-safe. -/
abbrev ClaimsSafe (m : Claims) : Prop :=
  ∀ kv ∈ m, safeStr kv.1 = true ∧ safeStr kv.2 = true

/-- JSON string literal for a safe string: quote, characters, quote. -/
def jsonQuote (s : String) : List Char := '\"' :: s.toList ++ ['\"']

/-- JSON `"key":"value"` member for one claim. -/
def encPairJson (kv : String × String) : List Char := jsonQuote kv.1 ++ ':' :: jsonQuote kv.2

/-- Comma-separated JSON members of a claims object. -/
def encEntriesJson : Claims → List Char
  | [] => []
  | [kv] => encPairJson kv
  | kv :: rest => encPairJson kv ++ ',' :: encEntriesJson rest

/-- Compact JSON object text for a claims mapping (the canonical form every JSON
encoder can produce and `json.loads` accepts). -/
def jsonEncodeClaims (m : Claims) : List Char := '\x7b' :: encEntriesJson m ++ ['\x7d']

/-- Body of a JSON string literal after its opening quote: plain characters up to
the closing quote; an escape or a missing quote fails. -/
def parseStrBody : List Char → Option (List Char × List Char)
  | [] => none
  | c :: rest =>
    if c = '\"' then some ([], rest)
    else if c = '\\' then none
    else (parseStrBody rest).map (fun p => (c :: p.1, p.2))

/-- A JSON string literal: an opening quote followed by its body. -/
def parseQuoted : List Char → Option (List Char × List Char)
  | [] => none
  | c :: rest => if c = '\"' then parseStrBody rest else none

/-- Members of a JSON object after its opening brace: either an immediate closing
brace, or `"key":"value"` members separated by commas.  The fuel argument bounds
the number of members and is in practice the input length. -/
def parseEntries : Nat → List Char → Option (Claims × List Char)
  | _, [] => none
  | fuel, c :: rest =>
    if c = '\x7d' then some ([], rest)
    else
      match fuel with
      | 0 => none
      | fuel + 1 =>
        match parseQuoted (c :: rest) with
        | none => none
        | some (k, r1) =>
          match r1 with
          | [] => none
          | c1 :: r2 =>
            if c1 = ':' then
              match parseQuoted r2 with
              | none => none
              | some (v, r3) =>
                match r3 with
                | [] => none
                | c2 :: r4 =>
                  if c2 = ',' then
                    match parseEntries fuel r4 with
                    | none => none
                    | some (ms, r5) => some ((String.mk k, String.mk v) :: ms, r5)
                  else if c2 = '\x7d' then some ([(String.mk k, String.mk v)], r4)
                  else none
            else none

/-- Model of `json.loads` on the fragment the claims pipeline uses: a compact JSON
object of string members, consumed entirely.  Inputs outside the fragment
(non-objects, nested values, stray whitespace) fail with `none`; in the source any
parse failure is an exception swallowed by the enclosing `except`, and a non-object
result leads to the same empty-claims rejection downstream. -/
def jsonParseClaims : List Char → Option Claims
  | [] => none
  | c :: rest =>
    if c = '\x7b' then
      match parseEntries (rest.length + 1) rest with
      | some (ms, []) => some ms
      | _ => none
    else none

/-- Python `jwt_token.split(".")` on a character list: greedy split at every
dot, keeping empty segments (so the result is always non-empty). -/
def splitOnDot : List Char → List (List Char)
  | [] => [[]]
  | c :: s =>
    if c = '.' then [] :: splitOnDot s
    else
      match splitOnDot s with
      | g :: gs => (c :: g) :: gs
      | [] => [[c]]

/-- The fallible middle part of `_decode_jwt_payload`: pad restoration, base64url
decoding, UTF-8 decoding and JSON parsing of the middle token segment; `none`
models the exception path. -/
def decodePipeline (payload : List Char) : Option Claims :=
  (b64urlDecode (padRestore payload)).bind fun bytes =>
    (asciiDecode bytes).bind fun chars => jsonParseClaims chars

/-- `_decode_jwt_payload(jwt_token)`: split on dots, reject any segment count
other than 3, then run the decoding pipeline on the middle segment; every failure
yields the empty claims mapping, never an exception. -/
def decodeJwtPayload (jwt : List Char) : Claims :=
  let parts := splitOnDot jwt
  if h : parts.length = 3 then (decodePipeline (parts.get ⟨1, by omega⟩)).getD []
  else []

/-! ### Subject extraction
(`_get_user_id_from_jwt`, `src/healthmate_coach_ai/agent.py` lines 107-134,
claims-level core: the part operating on the decoded payload). -/

/-- `payload.get(key)` on the decoded claims dict. -/
def lookupClaim (m : Claims) (k : String) : Option String :=
  (m.find? (fun kv => kv.1 == k)).map (fun kv => kv.2)

/-- Python `a or b` on optional strings: the first operand when truthy, otherwise
the second operand (whatever its truthiness). -/
def pyOrStr (a b : Option String) : Option String := if strTruthy a then a else b

/-- Subject extraction from a decoded claims mapping
(`_get_user_id_from_jwt` after `_decode_jwt_payload` returned `payload`):
an empty payload is rejected; otherwise `payload.get("sub")` when truthy, else the
Python `or`-chain `payload.get("username") or payload.get("email") or
payload.get("user_id")`. -/
def getUserIdFromClaims (payload : Claims) : Option String :=
  if payload.isEmpty then none
  else if strTruthy (lookupClaim payload "sub") then lookupClaim payload "sub"
  else
    pyOrStr (lookupClaim payload "username")
      (pyOrStr (lookupClaim payload "email") (lookupClaim payload "user_id"))

/-! ### MCP gateway transport
(`_call_mcp_gateway`, `src/agent/healthmate_coach_ai/agent.py` lines 174-211). -/

/-- Exceptions `_call_mcp_gateway` can raise, plus `otherErr` for any other
exception a gateway call may surface (network failures, invalid JSON, ...); the
tool-level `except Exception` clauses catch all of them alike. -/
inductive McpError
  | noTokenErr
  | authErr
  | authzErr
  | notFoundErr
  | serverErr
  | httpErr (status : Nat) (body : String)
  | protoErr (err : String)
  | otherErr (msg : String)
deriving DecidableEq

/-- `str(e)` of each exception: the message text the source raises with. -/
def McpError.message : McpError → String
  | noTokenErr => "M2M認証アクセストークンが必要です。"
  | authErr => "MCP Gateway認証エラー: M2M認証トークンが無効です。"
  | authzErr => "MCP Gateway認可エラー: 必要な権限がありません。"
  | notFoundErr => "MCP Gateway接続エラー: HealthManager MCPサービスが見つかりません。"
  | serverErr => "MCP Gatewayサーバーエラー: 内部エラーが発生しました。"
  | httpErr status body => "HTTP エラー " ++ toString status ++ ": " ++ body
  | protoErr e => "MCP プロトコルエラー: " ++ e
  | otherErr msg => msg

/-- A string contains a marker: its character list splits as prefix, marker,
suffix. -/
def strContains (s marker : String) : Prop :=
  ∃ pre post : List Char, s.toList = pre ++ (marker.toList ++ post)

/-- An HTTP response from the gateway as `_call_mcp_gateway` inspects it:
status code, body text, and the parsed JSON body's optional `error` field
(rendered) and optional `result` field. -/
structure GwHttpResp (α : Type) where
  status : Nat
  text : String
  errorField : Option String
  resultField : Option α
deriving DecidableEq

/-- `_call_mcp_gateway(method, params, access_token)` viewed as a function of the
HTTP response: a falsy access token is rejected up front; then 401, 403, 404,
`>= 500` and any other non-200 status raise their dedicated exceptions; a 200
response with a JSON-RPC `error` field raises a protocol error; otherwise
`result.get("result")` is returned. -/
def callMcpGateway {α : Type} (accessToken : String) (resp : GwHttpResp α) :
    Except McpError (Option α) :=
  if accessToken = "" then .error .noTokenErr
  else if resp.status = 401 then .error .authErr
  else if resp.status = 403 then .error .authzErr
  else if resp.status = 404 then .error .notFoundErr
  else if 500 ≤ resp.status then .error .serverErr
  else if resp.status ≠ 200 then .error (.httpErr resp.status resp.text)
  else
    match resp.errorField with
    | some e => .error (.protoErr e)
    | none => .ok resp.resultField

/-! ### `list_health_tools` pagination
(`src/agent/healthmate_coach_ai/agent.py` lines 215-287).  The gateway is a
behaviour `gw : Option String → Except McpError (Option GwPage)` mapping the
`cursor` request parameter (absent when the loop's cursor is falsy) to the
outcome of one `tools/list` call: an exception, a falsy `result`, or a page. -/

/-- One property of a tool's input schema: its optional `type` and `description`
fields. -/
structure PropInfo where
  ptype : Option String
  pdesc : Option String
deriving DecidableEq

/-- A tool's `inputSchema`: optional `properties` (an ordered dict) and optional
`required` list. -/
structure InputSchema where
  properties : Option (List (String × PropInfo))
  required : Option (List String)
deriving DecidableEq

/-- One entry of a `tools/list` page. -/
structure ToolDesc where
  name : Option String
  description : Option String
  inputSchema : Option InputSchema
deriving DecidableEq

/-- A truthy `tools/list` result: optional `tools` array and optional
`nextCursor` (`none` models an absent key or JSON `null`; `some ""` is non-null
but Python-falsy). -/
structure GwPage where
  tools : Option (List ToolDesc)
  nextCursor : Option String
deriving DecidableEq

/-- Outcome of the pagination loop: the accumulated `all_tools`, the final
`page_count`, and (ghost instrumentation for the specification) the successful
page responses in call order. -/
structure ListToolsOut where
  tools : List ToolDesc
  pageCount : Nat
  pages : List GwPage
deriving DecidableEq

/-- Result of the pagination loop: success, or the exception escaping the loop
together with (ghost) the number of calls performed. -/
inductive ListToolsResult
  | ok (out : ListToolsOut)
  | err (e : McpError) (pageCount : Nat)
deriving DecidableEq

/-- The `while True` pagination loop of `list_health_tools`: bump `page_count`,
call the gateway with the current cursor parameter (omitted while falsy), stop on
a falsy result, extend `all_tools` with the page's `tools`, stop when `nextCursor`
is falsy, stop when `page_count` reached 10, else continue with the new cursor.
`fuel` starts at 10 and stays equal to `10 - pageCount`, so the fuel-exhausted arm
is unreachable. -/
def listToolsLoop (gw : Option String → Except McpError (Option GwPage)) :
    Nat → Nat → Option String → List ToolDesc → List GwPage → ListToolsResult
  | 0, pageCount, _, acc, pages => .ok ⟨acc, pageCount, pages⟩
  | fuel + 1, pageCount, cursor, acc, pages =>
    let pc := pageCount + 1
    match gw (if strTruthy cursor then cursor else none) with
    | .error e => .err e pc
    | .ok none => .ok ⟨acc, pc, pages⟩
    | .ok (some page) =>
      let acc2 := acc ++ page.tools.getD []
      let pages2 := pages ++ [page]
      if strTruthy page.nextCursor = false then .ok ⟨acc2, pc, pages2⟩
      else if 10 ≤ pc then .ok ⟨acc2, pc, pages2⟩
      else listToolsLoop gw fuel pc page.nextCursor acc2 pages2

/-- The pagination loop from its initial state. -/
def listToolsRun (gw : Option String → Except McpError (Option GwPage)) : ListToolsResult :=
  listToolsLoop gw 10 0 none [] []

/-- Number of gateway calls a loop outcome records. -/
def countOf : ListToolsResult → Nat
  | .ok out => out.pageCount
  | .err _ n => n

/-- One parameter line of the tool formatting loop. -/
def formatProp (required : List String) (p : String × PropInfo) : String :=
  "  - " ++ p.1 ++ " (" ++ p.2.ptype.getD "unknown" ++ ")" ++
    (if required.contains p.1 then " (必須)" else " (任意)") ++
    ": " ++ p.2.pdesc.getD "" ++ "\n"

/-- The per-tool `tool_info` text: name and description, then the parameter lines
when the schema is truthy and has `properties`. -/
def formatTool (t : ToolDesc) : String :=
  let base := "**" ++ t.name.getD "Unknown" ++ "**\n説明: " ++
    t.description.getD "No description" ++ "\n"
  match t.inputSchema with
  | some s =>
    match s.properties with
    | some props =>
      base ++ "パラメータ:\n" ++ String.join (props.map (formatProp (s.required.getD [])))
    | none => base
  | none => base

/-- The success-path return value of `list_health_tools`: the not-found message on
an empty accumulation, else the header plus the newline-joined tool texts. -/
def renderToolsResult (tools : List ToolDesc) (pageCount : Nat) : String :=
  if tools.isEmpty then "利用可能なツールが見つかりませんでした。"
  else
    "利用可能なHealthManagerMCPツール (" ++ toString tools.length ++ "個、" ++
      toString pageCount ++ "ページから取得):\n\n" ++
      String.intercalate "\n" (tools.map formatTool)

/-- The `list_health_tools` tool: run the pagination loop under the `try`; any
exception becomes the textual error result; otherwise format the accumulation. -/
def list_health_tools (gw : Option String → Except McpError (Option GwPage)) : String :=
  match listToolsRun gw with
  | .err e _ => "ツールリスト取得エラー: " ++ e.message
  | .ok out => renderToolsResult out.tools out.pageCount

/-! ### `health_manager_mcp`
(`src/agent/healthmate_coach_ai/agent.py` lines 290-317; the variant in
`src/healthmate_coach_ai/agent.py` lines 294-331 has the same body).  The
`repr...` fields carry the `str(...)` renderings of the corresponding Python
values as model data. -/

/-- An element of a result's `content` list: a dict with an optional `text` field,
or any other value. -/
inductive ContentItem
  | cdict (textField : Option String) (reprI : String)
  | cother (reprI : String)
deriving DecidableEq

/-- The value of a result's `content` key: a list, or any non-list value. -/
inductive ContentVal
  | vlist (items : List ContentItem) (reprC : String)
  | vother (reprC : String)
deriving DecidableEq

/-- A truthy `tools/call` result: optional `content` plus its own rendering. -/
structure CallResp where
  content : Option ContentVal
  reprAll : String
deriving DecidableEq

/-- The `health_manager_mcp` tool as a function of the gateway call outcome
(`tool_name` and `arguments` only parametrize that call): any exception becomes
the textual error result; a falsy result reports an empty result; a `content`
list's first dict entry yields its `text` (or its rendering), a non-dict first
entry or empty/non-list `content` is rendered, and a result without `content` is
rendered whole. -/
def health_manager_mcp (call : Except McpError (Option CallResp)) : String :=
  match call with
  | .error e => "HealthManagerMCP呼び出しエラー: " ++ e.message
  | .ok none => "ツールの実行結果が空でした。"
  | .ok (some r) =>
    match r.content with
    | some (ContentVal.vlist (first :: _) _) =>
      match first with
      | ContentItem.cdict (some t) _ => t
      | ContentItem.cdict none reprI => reprI
      | ContentItem.cother reprI => reprI
    | some (ContentVal.vlist [] reprC) => reprC
    | some (ContentVal.vother reprC) => reprC
    | none => r.reprAll

/-- A gateway behaviour that always answers with one tool and the non-null but
empty (hence Python-falsy) cursor `""`. -/
def gwEmptyCursor : Option String → Except McpError (Option GwPage) :=
  fun _ => .ok (some ⟨some [⟨some "t1", none, none⟩], some ""⟩)

/-- A gateway behaviour whose every call raises the authentication error. -/
def gwAlwaysFail : Option String → Except McpError (Option GwPage) :=
  fun _ => .error .authErr

/-- A runaway gateway behaviour: every call answers with one tool and the truthy
cursor `"c"`. -/
def gwRunawayC : Option String → Except McpError (Option GwPage) :=
  fun _ => .ok (some ⟨some [⟨some "t", none, none⟩], some "c"⟩)

/-! ### Entry validation of the entrypoint `invoke`
(`src/healthmate_coach_ai/agent.py` lines 744-835): extraction of the session
attributes, the ordered required-field checks each yielding a single error event
and returning, the default greeting on an empty prompt, and only then the
queue/producer streaming phase (the sole path that performs network calls). -/

/-- The inbound payload fields the entrypoint reads (a `none` field models an
absent key). -/
structure InPayload where
  prompt : String
  jwt_token : Option String
  session_id : Option String
  timezone : Option String
  language : Option String
deriving DecidableEq

/-- Error text for a missing/falsy `jwt_token`. -/
def msgJwtMissing : String :=
  "必須フィールド \x27jwt_token\x27 がペイロードに含まれていません。認証が必要です。"

/-- Error text for a missing/falsy `session_id`. -/
def msgSidMissing : String :=
  "必須フィールド \x27session_id\x27 がペイロードに含まれていません。セッション管理が必要です。"

/-- Error text for a too-short `session_id` of the given length. -/
def msgSidShort (n : Nat) : String :=
  "session_id の長さが不正です（" ++ toString n ++ "文字）。33文字以上が必要です。"

/-- Error text for an unresolvable user id. -/
def msgNoUserId : String :=
  "JWT トークンからユーザーIDを抽出できませんでした。有効な認証トークンが必要です。"

/-- The default greeting for an empty prompt. -/
def greetText : String := "こんにちは！健康に関してどのようなサポートが必要ですか？"

/-- An event yielded by the entrypoint: a `contentBlockDelta` text event built
in place, or an item forwarded from the producer queue. -/
inductive OutEvent
  | delta (text : String)
  | item (q : QItem)
deriving DecidableEq

/-- How the entrypoint proceeds after its validation prefix. -/
inductive InvokeOutcome
  | errEvent (text : String)
  | greeting
  | runStream
deriving DecidableEq

/-- The validation prefix of the entrypoint, in source order: falsy `jwt_token`;
falsy `session_id`; `session_id` shorter than 33; unresolvable user id from the
decoded token; empty prompt (greeting); otherwise the streaming phase. -/
def invokeValidate (p : InPayload) : InvokeOutcome :=
  if strTruthy p.jwt_token = false then .errEvent msgJwtMissing
  else if strTruthy p.session_id = false then .errEvent msgSidMissing
  else if (p.session_id.getD "").length < 33 then
    .errEvent (msgSidShort (p.session_id.getD "").length)
  else if strTruthy (getUserIdFromClaims
      (decodeJwtPayload (p.jwt_token.getD "").toList)) = false then
    .errEvent msgNoUserId
  else if p.prompt = "" then .greeting
  else .runStream

/-- The entrypoint's yielded events and whether the producer task (the only
network-calling path) was started; the streaming phase itself is abstracted by
the `stream` parameter. -/
def invokeRun (p : InPayload) (stream : List OutEvent) : List OutEvent × Bool :=
  match invokeValidate p with
  | .errEvent t => ([OutEvent.delta ("エラー: " ++ t)], false)
  | .greeting => ([OutEvent.delta greetText], false)
  | .runStream => (stream, true)

end HealthCoach

namespace HealthCoach

theorem extractStep_text (ev : RawEvent) (t : String) :
    (extractStep ev t).1 = t ++ textOf ev := by
  cases ev with
  | rstr s => rfl
  | revt cbStart cbDelta =>
    cases cbDelta with
    | none => simp [extractStep, textOf]
    | some d =>
      cases h : d.text with
      | none => simp [extractStep, textOf, h]
      | some s => simp [extractStep, textOf, h]
  | rother => simp [extractStep, textOf]

theorem foldl_extract_eq (events : List RawEvent) (t : String) :
    events.foldl (fun t ev => (extractStep ev t).1) t = t ++ concatTexts events := by
  induction events generalizing t with
  | nil => simp [concatTexts]
  | cons ev evs ih =>
    rw [List.foldl_cons, extractStep_text, ih, concatTexts, String.append_assoc]

theorem b64Index_b64Char (i : Nat) (h : i < 64) : b64Index (b64Char i) = some i := by
  have hall : ∀ j : Fin 64, b64Index (b64Char j.val) = some j.val := by decide
  exact hall ⟨i, h⟩

theorem b64Char_ne_pad (i : Nat) (h : i < 64) : b64Char i ≠ '=' := by
  have hall : ∀ j : Fin 64, b64Char j.val ≠ '=' := by decide
  exact hall ⟨i, h⟩

theorem b64Char_ne_dot (i : Nat) (h : i < 64) : b64Char i ≠ '.' := by
  have hall : ∀ j : Fin 64, b64Char j.val ≠ '.' := by decide
  exact hall ⟨i, h⟩

theorem b64_roundtrip : ∀ bs : List Nat, (∀ x ∈ bs, x < 256) →
    b64urlDecode (b64urlEncodePad bs) = some bs
  | [], _ => rfl
  | [a], h => by
    have ha : a < 256 := h a (by simp)
    have h1 : b64Index (b64Char (a / 4)) = some (a / 4) := b64Index_b64Char _ (by omega)
    have h2 : b64Index (b64Char (a % 4 * 16)) = some (a % 4 * 16) :=
      b64Index_b64Char _ (by omega)
    simp [b64urlEncodePad, b64urlDecode, h1, h2, decByte1]
    omega
  | [a, b], h => by
    have ha : a < 256 := h a (by simp)
    have hb : b < 256 := h b (by simp)
    have h1 : b64Index (b64Char (a / 4)) = some (a / 4) := b64Index_b64Char _ (by omega)
    have h2 : b64Index (b64Char (a % 4 * 16 + b / 16)) = some (a % 4 * 16 + b / 16) :=
      b64Index_b64Char _ (by omega)
    have h3 : b64Index (b64Char (b % 16 * 4)) = some (b % 16 * 4) :=
      b64Index_b64Char _ (by omega)
    have hne : b64Char (b % 16 * 4) ≠ '=' := b64Char_ne_pad _ (by omega)
    simp [b64urlEncodePad, b64urlDecode, h1, h2, h3, hne, decByte1, decByte2]
    omega
  | a :: b :: c :: rest, h => by
    have ha : a < 256 := h a (by simp)
    have hb : b < 256 := h b (by simp)
    have hc : c < 256 := h c (by simp)
    have ih := b64_roundtrip rest (fun x hx => h x (by simp [hx]))
    have h1 : b64Index (b64Char (a / 4)) = some (a / 4) := b64Index_b64Char _ (by omega)
    have h2 : b64Index (b64Char (a % 4 * 16 + b / 16)) = some (a % 4 * 16 + b / 16) :=
      b64Index_b64Char _ (by omega)
    have h3 : b64Index (b64Char (b % 16 * 4 + c / 64)) = some (b % 16 * 4 + c / 64) :=
      b64Index_b64Char _ (by omega)
    have h4 : b64Index (b64Char (c % 64)) = some (c % 64) := b64Index_b64Char _ (by omega)
    have hne3 : b64Char (b % 16 * 4 + c / 64) ≠ '=' := b64Char_ne_pad _ (by omega)
    have hne4 : b64Char (c % 64) ≠ '=' := b64Char_ne_pad _ (by omega)
    show b64urlDecode (b64Char (a / 4) :: b64Char (a % 4 * 16 + b / 16) ::
        b64Char (b % 16 * 4 + c / 64) :: b64Char (c % 64) :: b64urlEncodePad rest) = _
    simp [b64urlDecode, h1, h2, h3, h4, hne3, hne4, ih, decByte1, decByte2, decByte3]
    refine ⟨by omega, by omega, by omega⟩

theorem padRestore_cons4 (c1 c2 c3 c4 : Char) (l : List Char) :
    padRestore (c1 :: c2 :: c3 :: c4 :: l) = c1 :: c2 :: c3 :: c4 :: padRestore l := by
  have h4 : (l.length + 1 + 1 + 1 + 1) % 4 = l.length % 4 := by omega
  by_cases hp : 4 - l.length % 4 = 4
  · simp [padRestore, h4, hp]
  · simp [padRestore, h4, hp]

theorem padRestore_encodeNoPad : ∀ bs : List Nat,
    padRestore (b64urlEncodeNoPad bs) = b64urlEncodePad bs
  | [] => by simp [b64urlEncodeNoPad, b64urlEncodePad, padRestore]
  | [a] => by
    simp [b64urlEncodeNoPad, b64urlEncodePad, padRestore]
  | [a, b] => by
    simp [b64urlEncodeNoPad, b64urlEncodePad, padRestore]
  | a :: b :: c :: rest => by
    show padRestore (b64Char (a / 4) :: b64Char (a % 4 * 16 + b / 16) ::
        b64Char (b % 16 * 4 + c / 64) :: b64Char (c % 64) :: b64urlEncodeNoPad rest) = _
    rw [padRestore_cons4, padRestore_encodeNoPad rest]
    rfl

theorem asciiDecode_map (cs : List Char) (h : ∀ c ∈ cs, c.toNat < 128) :
    asciiDecode (cs.map Char.toNat) = some cs := by
  induction cs with
  | nil => rfl
  | cons c cs ih =>
    have hc : c.toNat < 128 := h c (by simp)
    simp [asciiDecode, hc, ih (fun x hx => h x (by simp [hx])), Char.ofNat_toNat]

theorem safeChar_parts (c : Char) (h : safeChar c = true) :
    c.toNat < 128 ∧ ¬ c = '\"' ∧ ¬ c = '\\' := by
  simp only [safeChar, Bool.and_eq_true, decide_eq_true_eq, Bool.not_eq_true',
    beq_eq_false_iff_ne, ne_eq] at h
  exact ⟨h.1.1.2, h.1.2, h.2⟩

theorem safeStr_chars (s : String) (hs : safeStr s = true) :
    ∀ c ∈ s.toList, safeChar c = true := by
  simpa [safeStr, List.all_eq_true] using hs

theorem parseStrBody_enc : ∀ (s : List Char), (∀ c ∈ s, safeChar c = true) →
    ∀ rest, parseStrBody (s ++ '\"' :: rest) = some (s, rest)
  | [], _, rest => by simp [parseStrBody]
  | c :: s, h, rest => by
    obtain ⟨_, hq, hbs⟩ := safeChar_parts c (h c (by simp))
    simp [parseStrBody, hq, hbs,
      parseStrBody_enc s (fun x hx => h x (by simp [hx])) rest]

theorem parseQuoted_enc (s : String) (hs : safeStr s = true) (rest : List Char) :
    parseQuoted (jsonQuote s ++ rest) = some (s.toList, rest) := by
  have e : jsonQuote s ++ rest = '\"' :: (s.toList ++ '\"' :: rest) := by simp [jsonQuote]
  rw [e]
  simpa [parseQuoted] using parseStrBody_enc s.toList (safeStr_chars s hs) rest

theorem parseEntries_enc : ∀ (m : Claims) (fuel : Nat), ClaimsSafe m → m.length ≤ fuel →
    ∀ rest, parseEntries fuel (encEntriesJson m ++ '\x7d' :: rest) = some (m, rest)
  | [], fuel, _, _, rest => by cases fuel <;> simp [encEntriesJson, parseEntries]
  | [kv], fuel, hsafe, hlen, rest => by
    have h1 : 1 ≤ fuel := by simpa using hlen
    obtain ⟨f, rfl⟩ : ∃ f, fuel = f + 1 := ⟨fuel - 1, by omega⟩
    obtain ⟨hk, hv⟩ := hsafe kv (by simp)
    have e1 : encEntriesJson [kv] ++ '\x7d' :: rest
        = '\"' :: (kv.1.toList ++ '\"' :: (':' :: (jsonQuote kv.2 ++ '\x7d' :: rest))) := by
      simp [encEntriesJson, encPairJson, jsonQuote]
    have hq1 : parseQuoted ('\"' :: (kv.1.toList ++ '\"' :: (':' :: (jsonQuote kv.2 ++ '\x7d' :: rest))))
        = some (kv.1.toList, ':' :: (jsonQuote kv.2 ++ '\x7d' :: rest)) := by
      have h0 := parseQuoted_enc kv.1 hk (':' :: (jsonQuote kv.2 ++ '\x7d' :: rest))
      simpa [jsonQuote] using h0
    have hq2 := parseQuoted_enc kv.2 hv ('\x7d' :: rest)
    rw [e1]
    simp at hq1 hq2
    simp [parseEntries, hq1, hq2]
  | kv :: kv2 :: tail, fuel, hsafe, hlen, rest => by
    have h1 : 1 ≤ fuel := by simp at hlen; omega
    obtain ⟨f, rfl⟩ : ∃ f, fuel = f + 1 := ⟨fuel - 1, by omega⟩
    obtain ⟨hk, hv⟩ := hsafe kv (by simp)
    have ih := parseEntries_enc (kv2 :: tail) f
      (fun x hx => hsafe x (List.mem_cons_of_mem _ hx))
      (by simp at hlen ⊢; omega) rest
    have e1 : encEntriesJson (kv :: kv2 :: tail) ++ '\x7d' :: rest
        = '\"' :: (kv.1.toList ++ '\"' :: (':' :: (jsonQuote kv.2 ++
            ',' :: (encEntriesJson (kv2 :: tail) ++ '\x7d' :: rest)))) := by
      simp [encEntriesJson, encPairJson, jsonQuote]
    have hq1 : parseQuoted ('\"' :: (kv.1.toList ++ '\"' :: (':' :: (jsonQuote kv.2 ++
          ',' :: (encEntriesJson (kv2 :: tail) ++ '\x7d' :: rest)))))
        = some (kv.1.toList, ':' :: (jsonQuote kv.2 ++
            ',' :: (encEntriesJson (kv2 :: tail) ++ '\x7d' :: rest))) := by
      have h0 := parseQuoted_enc kv.1 hk
        (':' :: (jsonQuote kv.2 ++ ',' :: (encEntriesJson (kv2 :: tail) ++ '\x7d' :: rest)))
      simpa [jsonQuote] using h0
    have hq2 := parseQuoted_enc kv.2 hv
      (',' :: (encEntriesJson (kv2 :: tail) ++ '\x7d' :: rest))
    rw [e1]
    simp at hq1 hq2
    simp [parseEntries, hq1, hq2, ih]

theorem length_le_encEntries : ∀ m : Claims, m.length ≤ (encEntriesJson m).length + 1
  | [] => by simp [encEntriesJson]
  | [kv] => by simp [encEntriesJson]
  | kv :: kv2 :: tail => by
    have ih := length_le_encEntries (kv2 :: tail)
    simp only [encEntriesJson, List.length_append, List.length_cons] at ih ⊢
    omega

theorem jsonParseClaims_enc (m : Claims) (hm : ClaimsSafe m) :
    jsonParseClaims (jsonEncodeClaims m) = some m := by
  have e : jsonEncodeClaims m = '\x7b' :: (encEntriesJson m ++ '\x7d' :: []) := by
    simp [jsonEncodeClaims]
  rw [e]
  have hp := parseEntries_enc m ((encEntriesJson m ++ '\x7d' :: []).length + 1) hm
    (by have := length_le_encEntries m; simp [List.length_append]; omega) []
  simp at hp
  simp [jsonParseClaims, hp]

theorem splitOnDot_nodot_append : ∀ (a : List Char), (∀ c ∈ a, c ≠ '.') →
    ∀ (s g : List Char) (gs : List (List Char)),
    splitOnDot s = g :: gs → splitOnDot (a ++ s) = (a ++ g) :: gs
  | [], _, s, g, gs, hs => by simpa using hs
  | c :: a, h, s, g, gs, hs => by
    have hc : ¬ c = '.' := h c (by simp)
    have ih := splitOnDot_nodot_append a (fun x hx => h x (by simp [hx])) s g gs hs
    simp [splitOnDot, hc, ih]

theorem splitOnDot_nodot (a : List Char) (h : ∀ c ∈ a, c ≠ '.') : splitOnDot a = [a] := by
  have h0 := splitOnDot_nodot_append a h [] [] [] (by simp [splitOnDot])
  simpa using h0

theorem splitOnDot_jwt (h p t : List Char) (hh : ∀ c ∈ h, c ≠ '.')
    (hp : ∀ c ∈ p, c ≠ '.') (ht : ∀ c ∈ t, c ≠ '.') :
    splitOnDot (h ++ '.' :: (p ++ '.' :: t)) = [h, p, t] := by
  have h1 : splitOnDot t = [t] := splitOnDot_nodot t ht
  have h2 : splitOnDot ('.' :: t) = [] :: [t] := by simp [splitOnDot, h1]
  have h3 : splitOnDot (p ++ '.' :: t) = [p, t] := by
    have h0 := splitOnDot_nodot_append p hp ('.' :: t) [] [t] h2
    simpa using h0
  have h4 : splitOnDot ('.' :: (p ++ '.' :: t)) = [] :: [p, t] := by
    simp [splitOnDot, h3]
  have h5 := splitOnDot_nodot_append h hh ('.' :: (p ++ '.' :: t)) [] [p, t] h4
  simpa using h5

theorem encEntriesJson_ascii : ∀ m : Claims, ClaimsSafe m →
    ∀ c ∈ encEntriesJson m, c.toNat < 128
  | [], _, c, hc => by simp [encEntriesJson] at hc
  | [kv], hm, c, hc => by
    obtain ⟨hk, hv⟩ := hm kv (by simp)
    simp [encEntriesJson, encPairJson, jsonQuote] at hc
    rcases hc with rfl | hc | rfl | rfl | rfl | hc | rfl
    · decide
    · exact (safeChar_parts c (safeStr_chars _ hk c hc)).1
    · decide
    · decide
    · decide
    · exact (safeChar_parts c (safeStr_chars _ hv c hc)).1
    · decide
  | kv :: kv2 :: tail, hm, c, hc => by
    obtain ⟨hk, hv⟩ := hm kv (by simp)
    have ih := encEntriesJson_ascii (kv2 :: tail)
      (fun x hx => hm x (List.mem_cons_of_mem _ hx))
    rw [show encEntriesJson (kv :: kv2 :: tail)
        = encPairJson kv ++ ',' :: encEntriesJson (kv2 :: tail) from rfl] at hc
    simp [encPairJson, jsonQuote] at hc
    rcases hc with rfl | hc | rfl | rfl | rfl | hc | rfl | rfl | hc
    · decide
    · exact (safeChar_parts c (safeStr_chars _ hk c hc)).1
    · decide
    · decide
    · decide
    · exact (safeChar_parts c (safeStr_chars _ hv c hc)).1
    · decide
    · decide
    · exact ih c hc

theorem jsonEncodeClaims_ascii (m : Claims) (hm : ClaimsSafe m) :
    ∀ c ∈ jsonEncodeClaims m, c.toNat < 128 := by
  intro c hc
  simp [jsonEncodeClaims] at hc
  rcases hc with rfl | hc | rfl
  · decide
  · exact encEntriesJson_ascii m hm c hc
  · decide

theorem encodeNoPad_nodot : ∀ (bs : List Nat), (∀ x ∈ bs, x < 256) →
    ∀ c ∈ b64urlEncodeNoPad bs, c ≠ '.'
  | [], _, c, hc => by simp [b64urlEncodeNoPad] at hc
  | [a], h, c, hc => by
    have ha : a < 256 := h a (by simp)
    simp [b64urlEncodeNoPad] at hc
    rcases hc with rfl | rfl
    · exact b64Char_ne_dot _ (by omega)
    · exact b64Char_ne_dot _ (by omega)
  | [a, b], h, c, hc => by
    have ha : a < 256 := h a (by simp)
    have hb : b < 256 := h b (by simp)
    simp [b64urlEncodeNoPad] at hc
    rcases hc with rfl | rfl | rfl
    · exact b64Char_ne_dot _ (by omega)
    · exact b64Char_ne_dot _ (by omega)
    · exact b64Char_ne_dot _ (by omega)
  | a :: b :: c' :: rest, h, c, hc => by
    have ha : a < 256 := h a (by simp)
    have hb : b < 256 := h b (by simp)
    have hc' : c' < 256 := h c' (by simp)
    have ih := encodeNoPad_nodot rest (fun x hx => h x (by simp [hx]))
    rw [show b64urlEncodeNoPad (a :: b :: c' :: rest)
        = b64Char (a / 4) :: b64Char (a % 4 * 16 + b / 16) ::
          b64Char (b % 16 * 4 + c' / 64) :: b64Char (c' % 64) :: b64urlEncodeNoPad rest
        from rfl] at hc
    simp at hc
    rcases hc with rfl | rfl | rfl | rfl | hc
    · exact b64Char_ne_dot _ (by omega)
    · exact b64Char_ne_dot _ (by omega)
    · exact b64Char_ne_dot _ (by omega)
    · exact b64Char_ne_dot _ (by omega)
    · exact ih c hc

theorem decodePipeline_enc (m : Claims) (hm : ClaimsSafe m) :
    decodePipeline (b64urlEncodeNoPad ((jsonEncodeClaims m).map Char.toNat)) = some m := by
  have hascii := jsonEncodeClaims_ascii m hm
  have hbytes : ∀ x ∈ (jsonEncodeClaims m).map Char.toNat, x < 256 := by
    intro x hx
    simp only [List.mem_map] at hx
    obtain ⟨c, hc, rfl⟩ := hx
    have := hascii c hc
    omega
  unfold decodePipeline
  rw [padRestore_encodeNoPad, b64_roundtrip _ hbytes]
  simp [asciiDecode_map _ hascii, jsonParseClaims_enc m hm]

theorem pollLoop_eq_append_flatten (sched : List (List QItem)) (q : List QItem) :
    pollLoop sched q = q ++ sched.flatten := by
  induction sched generalizing q with
  | nil => simp [pollLoop]
  | cons batch rest ih =>
    cases h : q ++ batch with
    | nil =>
      rcases List.append_eq_nil.mp h with ⟨hq, hb⟩
      subst hq; subst hb
      simp [pollLoop, ih]
    | cons e q' =>
      simp only [pollLoop, h, ih q']
      rw [← List.cons_append, ← h, List.append_assoc]
      simp

theorem lookupClaim_empty (m : Claims) (h : m.isEmpty = true) (k : String) :
    lookupClaim m k = none := by
  cases m with
  | nil => rfl
  | cons kv tl => simp [List.isEmpty] at h

/-- C1: drain-on-completion without event loss.  For every schedule of producer
enqueue batches (the producer enqueues a finite sequence of items and then
completes), every enqueued item is yielded to the caller by the poll loop of the
entrypoint `invoke`, with its exact multiplicity — in particular the items still
queued when the loop notices completion are all flushed before the stream
terminates. -/
theorem claim_C1_drain_no_loss (sched : List (List QItem)) (x : QItem) :
    (pollLoop sched []).count x = sched.flatten.count x := by
  rw [pollLoop_eq_append_flatten]
  simp

/-- C2: event-order preservation.  For every schedule of producer enqueue batches
and every queue backlog, the sequence the poll loop of the entrypoint `invoke`
yields is exactly the backlog followed by the items in enqueue order — no
reordering and no coalescing, on the per-item poll path and on the batch
drain-after-completion path alike. -/
theorem claim_C2_order_preservation (sched : List (List QItem)) (q : List QItem) :
    pollLoop sched q = q ++ sched.flatten :=
  pollLoop_eq_append_flatten sched q

/-- C7: decode totality and fail-closed result.  `_decode_jwt_payload` is a total
function; whenever the dot-split yields a segment count other than 3, or the
base64url/UTF-8/JSON pipeline on the middle segment fails (the modelled exception
path), it returns the empty claims mapping. -/
theorem claim_C7_decode_fail_closed (jwt : List Char) :
    ((splitOnDot jwt).length ≠ 3 → decodeJwtPayload jwt = []) ∧
    (∀ p0 p1 p2, splitOnDot jwt = [p0, p1, p2] → decodePipeline p1 = none →
      decodeJwtPayload jwt = []) := by
  constructor
  · intro hlen
    simp [decodeJwtPayload, hlen]
  · intro p0 p1 p2 hsp hpipe
    simp [decodeJwtPayload, hsp, hpipe]

/-- Witness for C7: a one-segment token, and a three-segment token whose middle
segment is not base64url, both decode to the empty mapping. -/
theorem claim_C7_decode_fail_closed_witness :
    decodeJwtPayload ['a', 'b'] = [] ∧ decodeJwtPayload ['a', '.', '!', '.', 'b'] = [] :=
  ⟨(claim_C7_decode_fail_closed _).1 (by decide),
   (claim_C7_decode_fail_closed _).2 ['a'] ['!'] ['b'] (by decide) (by decide)⟩

/-- C8: decode round-trip.  Encoding a (JSON-safe) claims mapping as a compact
JSON object, base64url-encoding its bytes with the padding stripped, and placing
the result as the middle segment of a three-dot-segment token, then applying
`_decode_jwt_payload`, yields the original claims mapping; in particular the
padding restoration `padding = 4 - (len % 4)`, appended only when `padding != 4`,
restores every valid unpadded base64url payload length (`padRestore_encodeNoPad`). -/
theorem claim_C8_decode_roundtrip (m : Claims) (header sig : List Char)
    (hm : ClaimsSafe m) (hh : ∀ c ∈ header, c ≠ '.') (hs : ∀ c ∈ sig, c ≠ '.') :
    decodeJwtPayload
      (header ++ '.' :: (b64urlEncodeNoPad ((jsonEncodeClaims m).map Char.toNat) ++ '.' :: sig))
      = m := by
  have hbytes : ∀ x ∈ (jsonEncodeClaims m).map Char.toNat, x < 256 := by
    intro x hx
    simp only [List.mem_map] at hx
    obtain ⟨c, hc, rfl⟩ := hx
    have := jsonEncodeClaims_ascii m hm c hc
    omega
  have hpd : ∀ c ∈ b64urlEncodeNoPad ((jsonEncodeClaims m).map Char.toNat), c ≠ '.' :=
    encodeNoPad_nodot _ hbytes
  have hsp := splitOnDot_jwt header _ sig hh hpd hs
  simp [decodeJwtPayload, hsp, decodePipeline_enc m hm]

/-- Witness for C8: the mapping `{"sub": "u1"}` round-trips through a concrete
three-segment token. -/
theorem claim_C8_decode_roundtrip_witness :
    decodeJwtPayload
      (['h'] ++ '.' :: (b64urlEncodeNoPad ((jsonEncodeClaims [("sub", "u1")]).map Char.toNat)
        ++ '.' :: ['s']))
      = [("sub", "u1")] :=
  claim_C8_decode_roundtrip [("sub", "u1")] ['h'] ['s'] (by decide) (by decide) (by decide)

/-- C6 counterexample: on the decoded claims mapping with `sub` present but equal
to the empty string and `username` equal to `"alice"`, subject extraction returns
`"alice"`, not the value of the present `sub` claim — Python truthiness, not
presence, drives the fallback chain. -/
theorem claim_C6_counterexample :
    lookupClaim [("sub", ""), ("username", "alice")] "sub" = some "" ∧
    getUserIdFromClaims [("sub", ""), ("username", "alice")] = some "alice" ∧
    (some "alice" : Option String) ≠ some "" := by
  refine ⟨by decide, by decide, by decide⟩

/-- C6 amended: subject extraction returns the `sub` claim when it is present and
non-empty; otherwise the first present-and-non-empty claim among `username`,
`email`, `user_id`, in that order; when none of the four is present and non-empty
it returns no usable subject (an absent or empty value, rejected downstream). -/
theorem claim_C6_subject_chain_amended (m : Claims) :
    (strTruthy (lookupClaim m "sub") = true →
      getUserIdFromClaims m = lookupClaim m "sub") ∧
    (strTruthy (lookupClaim m "sub") = false →
      strTruthy (lookupClaim m "username") = true →
      getUserIdFromClaims m = lookupClaim m "username") ∧
    (strTruthy (lookupClaim m "sub") = false →
      strTruthy (lookupClaim m "username") = false →
      strTruthy (lookupClaim m "email") = true →
      getUserIdFromClaims m = lookupClaim m "email") ∧
    (strTruthy (lookupClaim m "sub") = false →
      strTruthy (lookupClaim m "username") = false →
      strTruthy (lookupClaim m "email") = false →
      strTruthy (lookupClaim m "user_id") = true →
      getUserIdFromClaims m = lookupClaim m "user_id") ∧
    (strTruthy (lookupClaim m "sub") = false →
      strTruthy (lookupClaim m "username") = false →
      strTruthy (lookupClaim m "email") = false →
      strTruthy (lookupClaim m "user_id") = false →
      strTruthy (getUserIdFromClaims m) = false) := by
  by_cases he : m.isEmpty = true
  · have hs := lookupClaim_empty m he
    refine ⟨?_, ?_, ?_, ?_, ?_⟩ <;> intros <;>
      simp_all [strTruthy, getUserIdFromClaims, pyOrStr, hs]
  · refine ⟨?_, ?_, ?_, ?_, ?_⟩ <;> intros <;>
      simp_all [getUserIdFromClaims, pyOrStr]

/-- Witness for C6 (amended): concrete mappings exercising the `sub` case and the
`email` fallback case. -/
theorem claim_C6_subject_chain_amended_witness :
    getUserIdFromClaims [("sub", "u7")] = some "u7" ∧
    getUserIdFromClaims [("email", "e7")] = some "e7" :=
  ⟨((claim_C6_subject_chain_amended [("sub", "u7")]).1 (by decide)).trans (by decide),
   ((claim_C6_subject_chain_amended [("email", "e7")]).2.2.1
      (by decide) (by decide) (by decide)).trans (by decide)⟩

/-- C10: accumulated-text invariant.  The string a successful `invoke_health_coach`
run returns equals the concatenation, in processing order, of every plain-string
event and every `contentBlockDelta` text fragment passed to
`_extract_health_coach_events`; events of other shapes contribute nothing. -/
theorem claim_C10_accumulated_text (events : List RawEvent) :
    invokeHealthCoachText events = concatTexts events := by
  have h := foldl_extract_eq events ""
  simpa [invokeHealthCoachText] using h

theorem listToolsLoop_zero (gw : Option String → Except McpError (Option GwPage))
    (pc : Nat) (cursor : Option String) (acc : List ToolDesc) (pages : List GwPage) :
    listToolsLoop gw 0 pc cursor acc pages = .ok ⟨acc, pc, pages⟩ := rfl

theorem listToolsLoop_succ_err (gw : Option String → Except McpError (Option GwPage))
    (fuel pc : Nat) (cursor : Option String) (acc : List ToolDesc) (pages : List GwPage)
    (e : McpError) (hgw : gw (if strTruthy cursor then cursor else none) = .error e) :
    listToolsLoop gw (fuel + 1) pc cursor acc pages = .err e (pc + 1) := by
  unfold listToolsLoop
  rw [hgw]

theorem listToolsLoop_succ_none (gw : Option String → Except McpError (Option GwPage))
    (fuel pc : Nat) (cursor : Option String) (acc : List ToolDesc) (pages : List GwPage)
    (hgw : gw (if strTruthy cursor then cursor else none) = .ok none) :
    listToolsLoop gw (fuel + 1) pc cursor acc pages = .ok ⟨acc, pc + 1, pages⟩ := by
  unfold listToolsLoop
  rw [hgw]

theorem listToolsLoop_succ_some (gw : Option String → Except McpError (Option GwPage))
    (fuel pc : Nat) (cursor : Option String) (acc : List ToolDesc) (pages : List GwPage)
    (page : GwPage) (hgw : gw (if strTruthy cursor then cursor else none) = .ok (some page)) :
    listToolsLoop gw (fuel + 1) pc cursor acc pages =
      if strTruthy page.nextCursor = false then
        ListToolsResult.ok ⟨acc ++ page.tools.getD [], pc + 1, pages ++ [page]⟩
      else if 10 ≤ pc + 1 then
        ListToolsResult.ok ⟨acc ++ page.tools.getD [], pc + 1, pages ++ [page]⟩
      else
        listToolsLoop gw fuel (pc + 1) page.nextCursor
          (acc ++ page.tools.getD []) (pages ++ [page]) := by
  conv_lhs => unfold listToolsLoop
  rw [hgw]

theorem listToolsLoop_count_le (gw : Option String → Except McpError (Option GwPage)) :
    ∀ (fuel pageCount : Nat) (cursor : Option String)
      (acc : List ToolDesc) (pages : List GwPage), pageCount + fuel ≤ 10 →
      countOf (listToolsLoop gw fuel pageCount cursor acc pages) ≤ 10
  | 0, pc, cursor, acc, pages, h => by
    rw [listToolsLoop_zero]
    simp [countOf]
    omega
  | fuel + 1, pc, cursor, acc, pages, h => by
    cases hgw : gw (if strTruthy cursor then cursor else none) with
    | error e =>
      rw [listToolsLoop_succ_err gw fuel pc cursor acc pages e hgw]
      simp [countOf]
      omega
    | ok res =>
      cases res with
      | none =>
        rw [listToolsLoop_succ_none gw fuel pc cursor acc pages hgw]
        simp [countOf]
        omega
      | some page =>
        rw [listToolsLoop_succ_some gw fuel pc cursor acc pages page hgw]
        rcases Bool.eq_false_or_eq_true (strTruthy page.nextCursor) with hn | hn
        · have hn1 : ¬ strTruthy page.nextCursor = false := by simp [hn]
          rw [if_neg hn1]
          by_cases hc10 : 10 ≤ pc + 1
          · rw [if_pos hc10]
            simp [countOf]
            omega
          · rw [if_neg hc10]
            exact listToolsLoop_count_le gw fuel (pc + 1) page.nextCursor _ _ (by omega)
        · rw [if_pos hn]
          simp [countOf]
          omega

theorem listToolsLoop_acc (gw : Option String → Except McpError (Option GwPage)) :
    ∀ (fuel pageCount : Nat) (cursor : Option String)
      (acc : List ToolDesc) (pages : List GwPage),
      acc = (pages.map (fun p => p.tools.getD [])).flatten →
      ∀ out, listToolsLoop gw fuel pageCount cursor acc pages = .ok out →
        out.tools = (out.pages.map (fun p => p.tools.getD [])).flatten
  | 0, pc, cursor, acc, pages, hacc, out, hout => by
    rw [listToolsLoop_zero] at hout
    cases hout
    simpa using hacc
  | fuel + 1, pc, cursor, acc, pages, hacc, out, hout => by
    cases hgw : gw (if strTruthy cursor then cursor else none) with
    | error e =>
      rw [listToolsLoop_succ_err gw fuel pc cursor acc pages e hgw] at hout
      cases hout
    | ok res =>
      cases res with
      | none =>
        rw [listToolsLoop_succ_none gw fuel pc cursor acc pages hgw] at hout
        cases hout
        simpa using hacc
      | some page =>
        have hinv : acc ++ page.tools.getD []
            = ((pages ++ [page]).map (fun p => p.tools.getD [])).flatten := by
          simp [hacc]
        rw [listToolsLoop_succ_some gw fuel pc cursor acc pages page hgw] at hout
        rcases Bool.eq_false_or_eq_true (strTruthy page.nextCursor) with hn | hn
        · have hn1 : ¬ strTruthy page.nextCursor = false := by simp [hn]
          rw [if_neg hn1] at hout
          by_cases hc10 : 10 ≤ pc + 1
          · rw [if_pos hc10] at hout
            cases hout
            simpa using hinv
          · rw [if_neg hc10] at hout
            exact listToolsLoop_acc gw fuel (pc + 1) page.nextCursor _ _ hinv out hout
        · rw [if_pos hn] at hout
          cases hout
          simpa using hinv

theorem listToolsLoop_runaway (gw : Option String → Except McpError (Option GwPage))
    (hgw : ∀ c, ∃ p, gw c = .ok (some p) ∧ strTruthy p.nextCursor = true) :
    ∀ (fuel pageCount : Nat) (cursor : Option String)
      (acc : List ToolDesc) (pages : List GwPage),
      pageCount + fuel = 10 → 1 ≤ fuel →
      ∃ out, listToolsLoop gw fuel pageCount cursor acc pages = .ok out ∧
        out.pageCount = 10
  | 0, pc, _, _, _, h, h1 => by omega
  | fuel + 1, pc, cursor, acc, pages, h, _ => by
    obtain ⟨page, hp, ht⟩ := hgw (if strTruthy cursor then cursor else none)
    have hn1 : ¬ strTruthy page.nextCursor = false := by simp [ht]
    rw [listToolsLoop_succ_some gw fuel pc cursor acc pages page hp, if_neg hn1]
    by_cases hc10 : 10 ≤ pc + 1
    · rw [if_pos hc10]
      exact ⟨⟨acc ++ page.tools.getD [], pc + 1, pages ++ [page]⟩, rfl, by simp; omega⟩
    · rw [if_neg hc10]
      exact listToolsLoop_runaway gw hgw fuel (pc + 1) page.nextCursor _ _
        (by omega) (by omega)

/-- C3 counterexample: a gateway whose every response carries the non-null
`nextCursor` `""` receives exactly one call, not 10 — the loop stops on Python
falsiness, and `""` is non-null but falsy. -/
theorem claim_C3_counterexample :
    gwEmptyCursor none = .ok (some ⟨some [⟨some "t1", none, none⟩], some ""⟩) ∧
    (some "" : Option String) ≠ none ∧
    countOf (listToolsRun gwEmptyCursor) = 1 := by
  refine ⟨rfl, by decide, by decide⟩

/-- C3 amended: for every gateway behaviour the pagination loop of
`list_health_tools` performs at most 10 calls, threads each response's
`nextCursor` into the next call, and accumulates the `tools` arrays of the pages
in page order; when the gateway always returns a truthy (non-null and non-empty)
`nextCursor` it performs exactly 10 calls and returns the formatted accumulated
partial results rather than an error. -/
theorem claim_C3_pagination_amended (gw : Option String → Except McpError (Option GwPage)) :
    countOf (listToolsRun gw) ≤ 10 ∧
    (∀ out, listToolsRun gw = .ok out →
      out.tools = (out.pages.map (fun p => p.tools.getD [])).flatten) ∧
    ((∀ c, ∃ p, gw c = .ok (some p) ∧ strTruthy p.nextCursor = true) →
      ∃ out, listToolsRun gw = .ok out ∧ out.pageCount = 10 ∧
        list_health_tools gw = renderToolsResult out.tools out.pageCount) := by
  refine ⟨listToolsLoop_count_le gw 10 0 none [] [] (by omega),
    fun out hout => listToolsLoop_acc gw 10 0 none [] [] (by simp) out hout,
    fun hgw => ?_⟩
  obtain ⟨out, hout, h10⟩ := listToolsLoop_runaway gw hgw 10 0 none [] [] (by omega) (by omega)
  exact ⟨out, hout, h10, by simp [list_health_tools, listToolsRun, hout]⟩

/-- Witness for C3 (amended) at the concrete runaway gateway `gwRunawayC`. -/
theorem claim_C3_pagination_amended_witness :
    countOf (listToolsRun gwRunawayC) ≤ 10 ∧
    ∃ out, listToolsRun gwRunawayC = .ok out ∧ out.pageCount = 10 ∧
      list_health_tools gwRunawayC = renderToolsResult out.tools out.pageCount :=
  ⟨(claim_C3_pagination_amended gwRunawayC).1,
   (claim_C3_pagination_amended gwRunawayC).2.2 (fun _ => ⟨_, rfl, by decide⟩)⟩

/-- C4: HTTP error taxonomy of `_call_mcp_gateway`.  401, 403, 404, any status
`>= 500` and any other non-200 status raise the authentication, authorization,
service-not-found, upstream-server and generic HTTP errors respectively (the
generic one carrying status and body); a 200 response whose JSON body has an
`error` field raises a protocol error distinct from every transport class; each
class's message carries its marker string, and the markers are pairwise
distinct. -/
theorem claim_C4_http_taxonomy (tok : String) (resp : GwHttpResp String)
    (htok : tok ≠ "") :
    (resp.status = 401 → callMcpGateway tok resp = .error .authErr) ∧
    (resp.status = 403 → callMcpGateway tok resp = .error .authzErr) ∧
    (resp.status = 404 → callMcpGateway tok resp = .error .notFoundErr) ∧
    (500 ≤ resp.status → callMcpGateway tok resp = .error .serverErr) ∧
    (resp.status ≠ 200 → resp.status ≠ 401 → resp.status ≠ 403 → resp.status ≠ 404 →
      resp.status < 500 →
      callMcpGateway tok resp = .error (.httpErr resp.status resp.text)) ∧
    (resp.status = 200 → ∀ e, resp.errorField = some e →
      callMcpGateway tok resp = .error (.protoErr e)) ∧
    strContains (McpError.message .authErr) "認証エラー" ∧
    strContains (McpError.message .authzErr) "認可エラー" ∧
    strContains (McpError.message .notFoundErr) "接続エラー" ∧
    strContains (McpError.message .serverErr) "サーバーエラー" ∧
    (∀ st b, strContains (McpError.message (.httpErr st b)) "HTTP エラー" ∧
      strContains (McpError.message (.httpErr st b)) (toString st) ∧
      strContains (McpError.message (.httpErr st b)) b) ∧
    (∀ e, strContains (McpError.message (.protoErr e)) "プロトコルエラー") ∧
    (∀ e, McpError.protoErr e ≠ .authErr ∧ McpError.protoErr e ≠ .authzErr ∧
      McpError.protoErr e ≠ .notFoundErr ∧ McpError.protoErr e ≠ .serverErr ∧
      ∀ st b, McpError.protoErr e ≠ .httpErr st b) ∧
    List.Pairwise (fun a b => a ≠ b)
      ["認証エラー", "認可エラー", "接続エラー", "サーバーエラー", "HTTP エラー",
        "プロトコルエラー"] := by
  refine ⟨?_, ?_, ?_, ?_, ?_, ?_, ?_, ?_, ?_, ?_, ?_, ?_, ?_, ?_⟩
  · intro h; simp [callMcpGateway, htok, h]
  · intro h; simp [callMcpGateway, htok, h]
  · intro h; simp [callMcpGateway, htok, h]
  · intro h
    have h1 : resp.status ≠ 401 := by omega
    have h2 : resp.status ≠ 403 := by omega
    have h3 : resp.status ≠ 404 := by omega
    simp [callMcpGateway, htok, h, h1, h2, h3]
  · intro h200 h1 h2 h3 h5
    have h4 : ¬ 500 ≤ resp.status := by omega
    simp [callMcpGateway, htok, h200, h1, h2, h3, h4]
  · intro h e he
    simp [callMcpGateway, htok, h, he]
  · exact ⟨"MCP Gateway".toList, ": M2M認証トークンが無効です。".toList, by decide⟩
  · exact ⟨"MCP Gateway".toList, ": 必要な権限がありません。".toList, by decide⟩
  · exact ⟨"MCP Gateway".toList,
      ": HealthManager MCPサービスが見つかりません。".toList, by decide⟩
  · exact ⟨"MCP Gateway".toList, ": 内部エラーが発生しました。".toList, by decide⟩
  · intro st b
    refine ⟨⟨[], (" " ++ toString st ++ ": " ++ b).toList, ?_⟩,
      ⟨"HTTP エラー ".toList, (": " ++ b).toList, ?_⟩,
      ⟨("HTTP エラー " ++ toString st ++ ": ").toList, [], ?_⟩⟩
    · simp [McpError.message, String.toList]
    · simp [McpError.message, String.toList]
    · simp [McpError.message, String.toList]
  · intro e
    exact ⟨"MCP ".toList, (": " ++ e).toList, by simp [McpError.message, String.toList]⟩
  · intro e
    refine ⟨by simp, by simp, by simp, by simp, fun st b => by simp⟩
  · decide

/-- Witness for C4 at concrete responses for each status class. -/
theorem claim_C4_http_taxonomy_witness :
    callMcpGateway "t" (⟨401, "b1", none, none⟩ : GwHttpResp String) = .error .authErr ∧
    callMcpGateway "t" (⟨403, "b2", none, none⟩ : GwHttpResp String) = .error .authzErr ∧
    callMcpGateway "t" (⟨404, "b3", none, none⟩ : GwHttpResp String) = .error .notFoundErr ∧
    callMcpGateway "t" (⟨503, "b4", none, none⟩ : GwHttpResp String) = .error .serverErr ∧
    callMcpGateway "t" (⟨418, "teapot", none, none⟩ : GwHttpResp String)
      = .error (.httpErr 418 "teapot") ∧
    callMcpGateway "t" (⟨200, "", some "boom", none⟩ : GwHttpResp String)
      = .error (.protoErr "boom") :=
  ⟨(claim_C4_http_taxonomy "t" _ (by decide)).1 rfl,
   (claim_C4_http_taxonomy "t" _ (by decide)).2.1 rfl,
   (claim_C4_http_taxonomy "t" _ (by decide)).2.2.1 rfl,
   (claim_C4_http_taxonomy "t" _ (by decide)).2.2.2.1 (by decide),
   (claim_C4_http_taxonomy "t" _ (by decide)).2.2.2.2.1
     (by decide) (by decide) (by decide) (by decide) (by decide),
   (claim_C4_http_taxonomy "t" _ (by decide)).2.2.2.2.2.1 rfl "boom" rfl⟩

/-- C9: tool-error absorption.  Every exception a gateway call raises inside
`list_health_tools` or `health_manager_mcp` — every `McpError`, covering the
transport, protocol and authentication classes alike — is caught at the tool
boundary and converted into a textual error-description result; both tools are
total functions into `String`, so a failing tool call never aborts the event
stream. -/
theorem claim_C9_tool_error_absorption
    (gw : Option String → Except McpError (Option GwPage)) (e : McpError) :
    (∀ n, listToolsRun gw = .err e n →
      list_health_tools gw = "ツールリスト取得エラー: " ++ e.message) ∧
    health_manager_mcp (.error e) = "HealthManagerMCP呼び出しエラー: " ++ e.message := by
  constructor
  · intro n hrun
    simp [list_health_tools, hrun]
  · rfl

/-- Witness for C9: the always-failing gateway yields the textual error result
from `list_health_tools`, and a failing `tools/call` yields it from
`health_manager_mcp`. -/
theorem claim_C9_tool_error_absorption_witness :
    list_health_tools gwAlwaysFail = "ツールリスト取得エラー: " ++ McpError.message .authErr ∧
    health_manager_mcp (.error (.otherErr "boom"))
      = "HealthManagerMCP呼び出しエラー: " ++ McpError.message (.otherErr "boom") :=
  ⟨(claim_C9_tool_error_absorption gwAlwaysFail .authErr).1 1 (by decide),
   (claim_C9_tool_error_absorption gwAlwaysFail (.otherErr "boom")).2⟩

/-- C5 counterexample: with a present bearer credential and the present but empty
session identifier `""` (whose length 0 is below 33), the entrypoint yields the
missing-session-id error event, not the specific too-short error — presence is
tested by Python truthiness, so the empty string takes the missing-field branch. -/
theorem claim_C5_counterexample :
    (some "" : Option String) ≠ none ∧
    ("" : String).length < 33 ∧
    invokeRun ⟨"hi", some "x", some "", none, none⟩ []
      = ([OutEvent.delta ("エラー: " ++ msgSidMissing)], false) ∧
    msgSidMissing ≠ msgSidShort 0 := by
  refine ⟨by decide, by decide, by decide, by decide⟩

/-- C5 amended: the entrypoint checks, in order, (1) bearer credential present
and non-empty, (2) session identifier present and non-empty and then of length at
least 33, (3) subject identifier resolvable from the decoded credential; the
first failing check yields exactly one terminal user-facing error event and the
producer task — the only network-calling path — is never started; a present,
non-empty session identifier shorter than 33 characters gets the specific
session-id-too-short error, while an absent or empty one gets the
missing-session-id error. -/
theorem claim_C5_entry_validation_amended (p : InPayload) (stream : List OutEvent) :
    (strTruthy p.jwt_token = false →
      invokeRun p stream = ([OutEvent.delta ("エラー: " ++ msgJwtMissing)], false)) ∧
    (strTruthy p.jwt_token = true → strTruthy p.session_id = false →
      invokeRun p stream = ([OutEvent.delta ("エラー: " ++ msgSidMissing)], false)) ∧
    (strTruthy p.jwt_token = true → ∀ sid, p.session_id = some sid → sid ≠ "" →
      sid.length < 33 →
      invokeRun p stream
        = ([OutEvent.delta ("エラー: " ++ msgSidShort sid.length)], false)) ∧
    (strTruthy p.jwt_token = true → strTruthy p.session_id = true →
      33 ≤ (p.session_id.getD "").length →
      strTruthy (getUserIdFromClaims
        (decodeJwtPayload (p.jwt_token.getD "").toList)) = false →
      invokeRun p stream = ([OutEvent.delta ("エラー: " ++ msgNoUserId)], false)) := by
  refine ⟨?_, ?_, ?_, ?_⟩
  · intro h1
    simp [invokeRun, invokeValidate, h1]
  · intro h1 h2
    simp [invokeRun, invokeValidate, h1, h2]
  · intro h1 sid hsid hne hlen
    have h2 : strTruthy (some sid) = true := by
      simp [strTruthy, hne]
    simp [invokeRun, invokeValidate, h1, hsid, h2, hlen]
  · intro h1 h2 h3 h4
    have h5 : ¬ (p.session_id.getD "").length < 33 := by omega
    simp at h4
    simp [invokeRun, invokeValidate, h1, h2, h5, h4]

/-- Witness for C5 (amended) at concrete payloads: missing credential; a 5-char
session id; a long session id with an undecodable credential. -/
theorem claim_C5_entry_validation_amended_witness :
    invokeRun ⟨"hi", none, some "0123456789012345678901234567890123456789", none, none⟩ []
      = ([OutEvent.delta ("エラー: " ++ msgJwtMissing)], false) ∧
    invokeRun ⟨"hi", some "x", some "short", none, none⟩ []
      = ([OutEvent.delta ("エラー: " ++ msgSidShort 5)], false) ∧
    invokeRun ⟨"hi", some "x", some "0123456789012345678901234567890123456789", none, none⟩ []
      = ([OutEvent.delta ("エラー: " ++ msgNoUserId)], false) :=
  ⟨(claim_C5_entry_validation_amended _ _).1 (by decide),
   by
    have h := (claim_C5_entry_validation_amended
      ⟨"hi", some "x", some "short", none, none⟩ []).2.2.1
      (by decide) "short" rfl (by decide) (by decide)
    simpa using h,
   (claim_C5_entry_validation_amended _ _).2.2.2
     (by decide) (by decide) (by decide) (by decide)⟩

end HealthCoach
